import Mathlib

/-!
Verification of the single-file Python docker registry (`app.py`).

The registry state is a shallow embedding of the on-disk layout: the
`blobs/` directory, the `uploads/` directory and the `manifests/<repo>/`
tree are modelled as association lists from file names to file contents
(lists of bytes).  The SHA-256 hash, JSON parsing of manifest documents
and JSON re-serialization are abstracted as parameters collected in an
`Env`; every theorem is universally quantified over the environment and
witnesses instantiate a concrete computable one.

Python string primitives used by the code (`str.replace`,
`str.startswith`, slicing, `str.split`, `int()`, `sorted`) are modelled
by character-level functions so that all definitions evaluate by kernel
reduction.
-/

namespace DockerRegistry

/-- File contents: a sequence of bytes. -/
abbrev Bytes := List Nat

/-- One left-to-right, non-overlapping deletion pass of the pattern
`"sha256:"`, modelling Python `s.replace("sha256:", "")`. -/
def stripShaAux : List Char → List Char
  | 's' :: 'h' :: 'a' :: '2' :: '5' :: '6' :: ':' :: rest => stripShaAux rest
  | c :: rest => c :: stripShaAux rest
  | [] => []

/-- Models Python `digest.replace("sha256:", "")`. -/
def stripSha (s : String) : String := String.mk (stripShaAux s.data)

/-- Models Python `s.startswith(p)`. -/
def strStartsWith (s p : String) : Bool := p.data.isPrefixOf s.data

/-- Models Python `s[7:]` (used only to strip a leading `"sha256:"`). -/
def strDrop7 (s : String) : String := String.mk (s.data.drop 7)

/-- Lexicographic comparison of character lists by code point, the
ordering Python uses on `str`. -/
def charListLt : List Char → List Char → Bool
  | [], [] => false
  | [], _ :: _ => true
  | _ :: _, [] => false
  | a :: as, b :: bs =>
    if a.toNat < b.toNat then true
    else if b.toNat < a.toNat then false
    else charListLt as bs

/-- Models Python `a < b` on strings. -/
def strLt (a b : String) : Bool := charListLt a.data b.data

/-- Non-strict string order: `a` is at most `b` when `b < a` fails. -/
def strLe (a b : String) : Bool := ! strLt b a

/-- Insert a string into a list, before the first element it is
strictly below; auxiliary step of `sortStrings`. -/
def insertStr (a : String) : List String → List String
  | [] => [a]
  | b :: t => if strLt a b then a :: b :: t else b :: insertStr a t

/-- Insertion sort, modelling Python `sorted` on a list of strings. -/
def sortStrings : List String → List String
  | [] => []
  | a :: t => insertStr a (sortStrings t)

/-- Models Python `s.split('-')`: split at every dash. -/
def splitDashAux : List Char → List Char → List String
  | [], acc => [String.mk acc.reverse]
  | '-' :: rest, acc => String.mk acc.reverse :: splitDashAux rest []
  | c :: rest, acc => splitDashAux rest (c :: acc)

/-- Models Python `s.split('-')`. -/
def splitDash (s : String) : List String := splitDashAux s.data []

/-- Decimal digit value of a character, if it is a digit. -/
def digitVal? (c : Char) : Option Nat :=
  if c.toNat ≥ 48 ∧ c.toNat ≤ 57 then some (c.toNat - 48) else none

/-- Accumulate the decimal value of a digit string. -/
def natOfCharsAux : List Char → Nat → Option Nat
  | [], acc => some acc
  | c :: t, acc =>
    match digitVal? c with
    | some d => natOfCharsAux t (acc * 10 + d)
    | none => none

/-- Parse a non-empty digit string as a natural number. -/
def natOfChars : List Char → Option Nat
  | [] => none
  | l => natOfCharsAux l 0

/-- Models Python `int(s)` on plain decimal literals with an optional
leading minus sign (failure models the `ValueError`). -/
def intOfStr (s : String) : Option Int :=
  match s.data with
  | '-' :: rest => (natOfChars rest).map (fun n => -(n : Int))
  | l => (natOfChars l).map (fun n => (n : Int))

/-- The `SUPPORTED_MANIFEST_TYPES` constant of `app.py`. -/
def SUPPORTED_MANIFEST_TYPES : List String :=
  ["application/vnd.docker.distribution.manifest.v1+json",
   "application/vnd.docker.distribution.manifest.v2+json",
   "application/vnd.docker.distribution.manifest.list.v2+json",
   "application/vnd.oci.image.manifest.v1+json",
   "application/vnd.oci.image.index.v1+json"]

/-- The default media type injected and served by `get_manifest`. -/
def MANIFEST_V2 : String := "application/vnd.docker.distribution.manifest.v2+json"

/-- The JSON shape of a manifest document, as far as `app.py` inspects
it: the optional `mediaType` field, `config.digest` when the `config`
object carries a `digest` key, and the `digest` entries of the `layers`
and `manifests` arrays (`none` for an array element without a `digest`
key, `none` for an absent array). -/
structure ManifestDoc where
  mediaType : Option String
  config : Option String
  layers : Option (List (Option String))
  manifests : Option (List (Option String))
deriving DecidableEq

/-- Abstracted primitives: SHA-256 as a hex string (`hashlib`), JSON
parsing of a byte sequence into a manifest document (`json.loads`,
`none` modelling `JSONDecodeError`) and JSON serialization
(`json.dumps(...).encode("utf-8")`). -/
structure Env where
  hashHex : Bytes → String
  parse : Bytes → Option ManifestDoc
  dumps : ManifestDoc → Bytes

/-- Models `f"sha256:" + hashlib.sha256(b).hexdigest()`. -/
def fullDigest (env : Env) (b : Bytes) : String := "sha256:" ++ env.hashHex b

/-- Directory lookup: the content of the file with the given name. -/
def alookup {α : Type} : List (String × α) → String → Option α
  | [], _ => none
  | (k', v) :: t, k => if k' = k then some v else alookup t k

/-- Writing a file: replace the entry in place, or append a new one. -/
def aset {α : Type} : List (String × α) → String → α → List (String × α)
  | [], k, v => [(k, v)]
  | (k', v') :: t, k, v => if k' = k then (k, v) :: t else (k', v') :: aset t k v

/-- Removing a file by name (removing an absent name is a no-op). -/
def aerase {α : Type} (l : List (String × α)) (k : String) : List (String × α) :=
  l.filter (fun p => p.1 ≠ k)

/-- The persistent state: the `blobs/` directory, the `uploads/`
directory and the `manifests/` tree (a directory of repositories, each
a directory of manifest files).  List order models directory
enumeration (`os.listdir`) order. -/
structure RegState where
  blobs : List (String × Bytes)
  uploads : List (String × Bytes)
  manifests : List (String × List (String × Bytes))
deriving DecidableEq

/-- Models `get_blob_path`: the file name under `blobs/` for a digest. -/
def get_blob_path (digest : String) : String := stripSha digest

/-- Models `get_manifest_path`: the file name under `manifests/<name>/` for a
reference (a leading `sha256:` is stripped). -/
def get_manifest_path (reference : String) : String :=
  if strStartsWith reference "sha256:" then strDrop7 reference else reference

/-- Models `get_manifest_by_digest`: scan the repository directory and return
the first file whose content hashes to the requested digest. -/
def get_manifest_by_digest (env : Env) (files : List (String × Bytes)) (digest : String) :
    Option Bytes :=
  (files.find? (fun fc => fullDigest env fc.2 == digest)).map Prod.snd

/-- The three reference checks of `_is_blob_referenced`: the document
references `digest` through `config.digest`, a `layers[].digest` or a
`manifests[].digest`. -/
def references (doc : ManifestDoc) (digest : String) : Bool :=
  (doc.config == some digest) ||
  ((doc.layers.getD []).any (fun l => l == some digest)) ||
  ((doc.manifests.getD []).any (fun m => m == some digest))

/-- The candidate digest set collected by `_delete_unreferenced_blobs`:
every digest the document mentions. -/
def refsOf (doc : ManifestDoc) : List String :=
  doc.config.toList ++ (doc.layers.getD []).filterMap id ++
    (doc.manifests.getD []).filterMap id

/-- Digest normalization at the top of `_is_blob_referenced`. -/
def normalizeDigest (d : String) : String :=
  if strStartsWith d "sha256:" then d else "sha256:" ++ d

/-- The `exclude_manifest` triple of `_is_blob_referenced`:
repository name, reference file name, and the file name of the digest
twin (`manifest_digest[7:]`, already stripped) when present. -/
structure Excl where
  name : String
  ref : String
  digestTwin : Option String
deriving DecidableEq

/-- The skip test inside `_is_blob_referenced`'s walk. -/
def excludedFile (ex : Option Excl) (repo fn : String) : Bool :=
  match ex with
  | none => false
  | some e =>
    (repo == e.name) &&
      ((fn == e.ref) ||
        (match e.digestTwin with
         | some tw => fn == tw
         | none => false))

/-- Models `_is_blob_referenced`: walk every manifest file of every
repository, skipping the excluded file names, and report whether any
surviving manifest references the (normalized) digest.  Unparseable
files are skipped. -/
def is_blob_referenced (env : Env) (ms : List (String × List (String × Bytes)))
    (digest : String) (ex : Option Excl) : Bool :=
  ms.any (fun p =>
    p.2.any (fun fc =>
      if excludedFile ex p.1 fc.1 then false
      else
        match env.parse fc.2 with
        | some doc => references doc (normalizeDigest digest)
        | none => false))

/-- Models `_delete_unreferenced_blobs`: for each candidate digest of the
document, remove its blob file unless some non-excluded manifest still
references it. -/
def delete_unreferenced_blobs (env : Env) (doc : ManifestDoc) (ex : Option Excl)
    (st : RegState) : RegState :=
  { st with
    blobs := (refsOf doc).foldl
      (fun bs d =>
        if is_blob_referenced env st.manifests d ex then bs
        else aerase bs (get_blob_path d))
      st.blobs }

/-- Response of the `PATCH` upload handler. -/
structure PatchResult where
  status : Nat
  errorCode : Option String := none
  rangeHeader : Option String := none
deriving DecidableEq

/-- Models `upload_blob` (`PATCH /v2/<name>/blobs/uploads/<id>`). -/
def upload_blob (st : RegState) (upload_id : String) (content_range : Option String)
    (body : Bytes) : PatchResult × RegState :=
  match alookup st.uploads upload_id with
  | none => ({ status := 404, errorCode := some "BLOB_UPLOAD_UNKNOWN" }, st)
  | some content =>
    let current_size := content.length
    let ok : Bool :=
      match content_range with
      | none => true
      | some s =>
        match splitDash s with
        | [a, b] =>
          match intOfStr a, intOfStr b with
          | some x, some _ => x == (current_size : Int)
          | _, _ => false
        | _ => false
    if ok then
      let newContent := content ++ body
      ({ status := 202,
         rangeHeader := some ("0-" ++ toString ((newContent.length : Int) - 1)) },
       { st with uploads := aset st.uploads upload_id newContent })
    else
      ({ status := 400, errorCode := some "BLOB_UPLOAD_INVALID" }, st)

/-- Response of the finalizing `PUT` upload handler. -/
structure FinalizeResult where
  status : Nat
  errorCode : Option String := none
  digestHeader : Option String := none
deriving DecidableEq

/-- Models `complete_blob_upload` (`PUT /v2/<name>/blobs/uploads/<id>?digest=`). -/
def complete_blob_upload (env : Env) (st : RegState) (upload_id : String)
    (digest : Option String) : FinalizeResult × RegState :=
  match alookup st.uploads upload_id with
  | none => ({ status := 404, errorCode := some "BLOB_UPLOAD_UNKNOWN" }, st)
  | some content =>
    match digest with
    | none => ({ status := 400, errorCode := some "DIGEST_INVALID" }, st)
    | some d =>
      if d ≠ fullDigest env content then
        ({ status := 400, errorCode := some "DIGEST_INVALID" },
         { st with uploads := aerase st.uploads upload_id })
      else
        let bname := get_blob_path d
        if (alookup st.blobs bname).isSome then
          ({ status := 201, digestHeader := some d },
           { st with uploads := aerase st.uploads upload_id })
        else
          ({ status := 201, digestHeader := some d },
           { st with
             uploads := aerase st.uploads upload_id,
             blobs := aset st.blobs bname content })

/-- Checks whether the request `Content-Type` starts with a supported
manifest media type, as in `put_manifest`. -/
def contentTypeOk (contentType : String) : Bool :=
  SUPPORTED_MANIFEST_TYPES.any (fun t => strStartsWith contentType t)

/-- The in-body media type rejection of `put_manifest`: an explicit
`mediaType` must be exactly one of the supported types. -/
def mediaTypeBad (doc : ManifestDoc) : Bool :=
  match doc.mediaType with
  | some mt => ! SUPPORTED_MANIFEST_TYPES.contains mt
  | none => false

/-- Response of the manifest `PUT` handler. -/
structure PutResult where
  status : Nat
  errorCode : Option String := none
  digestHeader : Option String := none
deriving DecidableEq

/-- Models `put_manifest` (`PUT /v2/<name>/manifests/<reference>`).  The
repository directory is created (`os.makedirs`) before any validation.
When the reference is a tag, the digest-address twin is written (the
hardlink and the byte-identical copy fall-back both leave a file with
the same bytes); the twin file name is `manifest_digest[7:]`, the bare
hex of the body hash. -/
def put_manifest (env : Env) (st : RegState) (name reference contentType : String)
    (body : Bytes) : PutResult × RegState :=
  let ms0 :=
    if (alookup st.manifests name).isSome then st.manifests
    else st.manifests ++ [(name, [])]
  let st0 := { st with manifests := ms0 }
  if ¬ contentTypeOk contentType then
    ({ status := 400, errorCode := some "MANIFEST_INVALID" }, st0)
  else
    match env.parse body with
    | none => ({ status := 400, errorCode := some "MANIFEST_INVALID" }, st0)
    | some doc =>
      if mediaTypeBad doc then
        ({ status := 400, errorCode := some "MANIFEST_INVALID" }, st0)
      else
        let files := (alookup ms0 name).getD []
        let files1 := aset files (get_manifest_path reference) body
        let files2 :=
          if ¬ strStartsWith reference "sha256:" then
            if (alookup files1 (env.hashHex body)).isSome then files1
            else aset files1 (env.hashHex body) body
          else files1
        ({ status := 201, digestHeader := some (fullDigest env body) },
         { st0 with manifests := aset ms0 name files2 })

/-- Response of the manifest `GET` handler. -/
structure GetResult where
  status : Nat
  errorCode : Option String := none
  body : Option Bytes := none
  digestHeader : Option String := none
  contentType : Option String := none
deriving DecidableEq

/-- Models `get_manifest` (`GET /v2/<name>/manifests/<reference>`): direct
file read with the digest fall-back scan, then media type inspection
with `mediaType` injection and re-serialization when the field is
absent; the digest header hashes the served bytes. -/
def get_manifest (env : Env) (st : RegState) (name reference : String) : GetResult :=
  let files := (alookup st.manifests name).getD []
  let dataOpt :=
    match alookup files (get_manifest_path reference) with
    | some c => some c
    | none =>
      if strStartsWith reference "sha256:" then
        get_manifest_by_digest env files reference
      else none
  match dataOpt with
  | none => { status := 404, errorCode := some "MANIFEST_UNKNOWN" }
  | some data =>
    match env.parse data with
    | none =>
      { status := 200, body := some data,
        digestHeader := some (fullDigest env data), contentType := some MANIFEST_V2 }
    | some doc =>
      match doc.mediaType with
      | none =>
        let data2 := env.dumps { doc with mediaType := some MANIFEST_V2 }
        { status := 200, body := some data2,
          digestHeader := some (fullDigest env data2), contentType := some MANIFEST_V2 }
      | some mt =>
        { status := 200, body := some data,
          digestHeader := some (fullDigest env data), contentType := some mt }

/-- The `last` filter of the pagination endpoints: Python skips the
filter when `last` is the empty string (falsy). -/
def pyLastFilter (last : String) (l : List String) : List String :=
  if last = "" then l else l.filter (fun r => strLt last r)

/-- The `n` truncation of the pagination endpoints. -/
def pyTake (n : Option Nat) (l : List String) : List String :=
  match n with
  | some k => l.take k
  | none => l

/-- Response of the catalog endpoint. -/
structure CatalogResult where
  repositories : List String
deriving DecidableEq

/-- Models `list_repositories` (`GET /v2/_catalog`): enumerate repository
directories, apply the `last` filter, truncate to `n`, then sort. -/
def list_repositories (st : RegState) (n : Option Nat) (last : String) : CatalogResult :=
  { repositories := sortStrings (pyTake n (pyLastFilter last (st.manifests.map Prod.fst))) }

/-- Response of the tag list endpoint. -/
structure TagsResult where
  status : Nat
  errorCode : Option String := none
  tags : List String := []
deriving DecidableEq

/-- Models `list_tags` (`GET /v2/<name>/tags/list`): 404 when the repository
directory is absent; otherwise list the files whose name does not start
with `sha256:`, apply the `last` filter, truncate to `n`, then sort. -/
def list_tags (st : RegState) (name : String) (n : Option Nat) (last : String) : TagsResult :=
  match alookup st.manifests name with
  | none => { status := 404, errorCode := some "NAME_UNKNOWN" }
  | some files =>
    let tags := (files.filter (fun fc => ! strStartsWith fc.1 "sha256:")).map Prod.fst
    { status := 200, tags := sortStrings (pyTake n (pyLastFilter last tags)) }

/-- Response of the manifest `DELETE` handler. -/
structure DeleteResult where
  status : Nat
  errorCode : Option String := none
deriving DecidableEq

/-- Models `delete_manifest` (`DELETE /v2/<name>/manifests/<reference>`) on
the code path taken for a tag reference (one not starting with
`sha256:`): read and parse the tag file (a parse failure escapes the
handler, producing the framework's 500), sweep the unreferenced
candidate blobs with the exclusion `(name, reference, manifest_digest)`
— the digest twin file name being `manifest_digest[7:]`, the bare hex
of the content hash — then unlink the tag file and, if distinct, its
digest twin. -/
def delete_manifest_tag (env : Env) (st : RegState) (name reference : String) :
    DeleteResult × RegState :=
  match alookup st.manifests name with
  | none => ({ status := 404, errorCode := some "MANIFEST_UNKNOWN" }, st)
  | some files =>
    match alookup files reference with
    | none => ({ status := 404, errorCode := some "MANIFEST_UNKNOWN" }, st)
    | some content =>
      match env.parse content with
      | none => ({ status := 500 }, st)
      | some doc =>
        let twin := env.hashHex content
        let ex : Excl := { name := name, ref := reference, digestTwin := some twin }
        let st1 := delete_unreferenced_blobs env doc (some ex) st
        let files1 := aerase files reference
        let files2 := if twin = reference then files1 else aerase files1 twin
        ({ status := 202 },
         { st1 with manifests := aset st1.manifests name files2 })

/-- Response of the bulk GC endpoint. -/
structure GcResult where
  status : Nat
  removed_blobs : List String := []
deriving DecidableEq

/-- The live set built by `garbage_collection`: every digest mentioned
by any parseable manifest file, with `sha256:` stripped
(`digest.replace("sha256:", "")`); unparseable files contribute
nothing. -/
def gcUsedBlobs (env : Env) (ms : List (String × List (String × Bytes))) : List String :=
  ms.flatMap (fun p =>
    p.2.flatMap (fun fc =>
      match env.parse fc.2 with
      | some doc => (refsOf doc).map stripSha
      | none => []))

/-- Models `garbage_collection` (`POST /v2/gc`): delete every blob file whose
name is not in the live set, report the removed names in directory
order, and recreate the uploads directory empty. -/
def garbage_collection (env : Env) (st : RegState) : GcResult × RegState :=
  let used := gcUsedBlobs env st.manifests
  let removed := (st.blobs.filter (fun b => ! used.contains b.1)).map Prod.fst
  ({ status := 200, removed_blobs := removed },
   { st with
     blobs := st.blobs.filter (fun b => used.contains b.1),
     uploads := [] })

/-- A list of strings in ascending order: no later element is strictly
below an earlier one. -/
def StrAscending (l : List String) : Prop :=
  l.Pairwise (fun a b => strLt b a = false)

/-- Some manifest file other than the excluded tag file and its digest
twin (in repository `excludeRepo`) parses and references the normalized
digest `nd`. -/
def referencesAnySurvivor (env : Env) (ms : List (String × List (String × Bytes)))
    (excludeRepo tagFile twinFile : String) (nd : String) : Prop :=
  ∃ p ∈ ms, ∃ fc ∈ p.2,
    ¬(p.1 = excludeRepo ∧ (fc.1 = tagFile ∨ fc.1 = twinFile)) ∧
    ∃ doc, env.parse fc.2 = some doc ∧ references doc nd = true

/-- The files of a repository directory (empty when the repository
directory is absent). -/
def repoFiles (st : RegState) (repo : String) : List (String × Bytes) :=
  (alookup st.manifests repo).getD []

/-- Sample manifest document referencing blobs `ha` and `hb`. -/
def sampleDocM1 : ManifestDoc :=
  { mediaType := some MANIFEST_V2, config := none,
    layers := some [some "sha256:ha", some "sha256:hb"], manifests := none }

/-- Sample manifest document referencing only blob `ha`. -/
def sampleDocM2 : ManifestDoc :=
  { mediaType := some MANIFEST_V2, config := none,
    layers := some [some "sha256:ha"], manifests := none }

/-- Sample manifest document with no `mediaType` field. -/
def sampleDocNoMT : ManifestDoc :=
  { mediaType := none, config := none,
    layers := some [some "sha256:ha"], manifests := none }

/-- A concrete environment used by the witnesses: an explicit hash,
parse and dump table over small byte strings. -/
def sampleEnv : Env where
  hashHex b :=
    match b with
    | [1] => "hm1"
    | [2] => "hm2"
    | [3] => "hm3"
    | [4] => "hm4"
    | [11] => "ha"
    | [12] => "hb"
    | _ => "hz"
  parse b :=
    match b with
    | [1] => some sampleDocM1
    | [2] => some sampleDocM2
    | [3] => some sampleDocNoMT
    | [4] => some { sampleDocNoMT with mediaType := some MANIFEST_V2 }
    | _ => none
  dumps _ := [4]

/-- A concrete registry state used by the witnesses: blobs `ha`, `hb`;
tags `M1`, `M2` with their digest twins in repository `repo`. -/
def sampleState : RegState :=
  { blobs := [("ha", [11]), ("hb", [12])],
    uploads := [],
    manifests := [("repo", [("M1", [1]), ("hm1", [1]), ("M2", [2]), ("hm2", [2])])] }

/-- The pagination result as the claim states it: first sort all
entries ascending, then drop the entries at most `last` (keep those
strictly above it), then truncate to the first `n`. -/
def paginationClaim (names : List String) (n : Option Nat) (last : String) : List String :=
  pyTake n ((sortStrings names).filter (fun r => strLt last r))

end DockerRegistry


namespace DockerRegistry

/-! ## Association list lemmas -/

theorem alookup_aset_self {α : Type} (l : List (String × α)) (k : String) (v : α) :
    alookup (aset l k v) k = some v := by
  induction l with
  | nil => simp [aset, alookup]
  | cons p t ih =>
    by_cases h : p.1 = k
    · simp [aset, alookup, h]
    · simpa [aset, alookup, h] using ih

theorem alookup_aset_ne {α : Type} (l : List (String × α)) (k' k : String) (v : α)
    (h : k' ≠ k) : alookup (aset l k' v) k = alookup l k := by
  induction l with
  | nil => simp [aset, alookup, h]
  | cons p t ih =>
    by_cases hp : p.1 = k'
    · simp [aset, alookup, hp, h]
    · simp only [aset, hp, if_false]
      by_cases hk : p.1 = k
      · simp [alookup, hk]
      · simpa [alookup, hk] using ih

theorem alookup_aerase {α : Type} (l : List (String × α)) (k' k : String) :
    alookup (aerase l k') k = if k' = k then none else alookup l k := by
  induction l with
  | nil => simp [aerase, alookup]
  | cons p t ih =>
    obtain ⟨a, v⟩ := p
    by_cases hp : a = k'
    · have hstep : aerase ((a, v) :: t) k' = aerase t k' := by
        simp [aerase, List.filter_cons, hp]
      rw [hstep, ih]
      by_cases hk : k' = k
      · simp [hk]
      · have hpk : ¬ a = k := by rw [hp]; exact hk
        simp [alookup, hpk, hk]
    · have hstep : aerase ((a, v) :: t) k' = (a, v) :: aerase t k' := by
        simp [aerase, List.filter_cons, hp]
      rw [hstep]
      by_cases hk : a = k
      · have hkk : ¬ k' = k := fun h => hp (by rw [hk, h])
        simp [alookup, hk, hkk]
      · simp only [alookup, if_neg hk]
        exact ih

theorem alookup_append_left_none {α : Type} (l1 l2 : List (String × α)) (k : String)
    (h : alookup l1 k = none) : alookup (l1 ++ l2) k = alookup l2 k := by
  induction l1 with
  | nil => simp
  | cons p t ih =>
    obtain ⟨a, v⟩ := p
    by_cases hp : a = k
    · simp [alookup, hp] at h
    · simp only [List.cons_append, alookup, if_neg hp] at h ⊢
      exact ih h

end DockerRegistry

namespace DockerRegistry

/-! ## String order and sorting lemmas -/

theorem charListLt_asymm (a b : List Char) (h : charListLt a b = true) :
    charListLt b a = false := by
  induction a generalizing b with
  | nil =>
    cases b with
    | nil => simp [charListLt] at h
    | cons c cs => simp [charListLt]
  | cons x xs ih =>
    cases b with
    | nil => simp [charListLt] at h
    | cons y ys =>
      simp only [charListLt] at h ⊢
      by_cases h1 : x.toNat < y.toNat
      · rw [if_neg (by omega), if_pos h1]
      · by_cases h2 : y.toNat < x.toNat
        · rw [if_neg h1, if_pos h2] at h
          exact absurd h (by simp)
        · rw [if_neg h1, if_neg h2] at h
          rw [if_neg h2, if_neg h1]
          exact ih ys h

theorem charListLt_trans (a b c : List Char) (h1 : charListLt a b = true)
    (h2 : charListLt b c = true) : charListLt a c = true := by
  induction a generalizing b c with
  | nil =>
    cases b with
    | nil => simp [charListLt] at h1
    | cons y ys =>
      cases c with
      | nil => simp [charListLt] at h2
      | cons z zs => simp [charListLt]
  | cons x xs ih =>
    cases b with
    | nil => simp [charListLt] at h1
    | cons y ys =>
      cases c with
      | nil => simp [charListLt] at h2
      | cons z zs =>
        simp only [charListLt] at h1 h2 ⊢
        by_cases hxy : x.toNat < y.toNat
        · by_cases hyz : y.toNat < z.toNat
          · rw [if_pos (by omega)]
          · by_cases hzy : z.toNat < y.toNat
            · rw [if_neg hyz, if_pos hzy] at h2
              exact absurd h2 (by simp)
            · rw [if_pos (by omega)]
        · by_cases hyx : y.toNat < x.toNat
          · rw [if_neg hxy, if_pos hyx] at h1
            exact absurd h1 (by simp)
          · rw [if_neg hxy, if_neg hyx] at h1
            by_cases hyz : y.toNat < z.toNat
            · rw [if_pos (by omega)]
            · by_cases hzy : z.toNat < y.toNat
              · rw [if_neg hyz, if_pos hzy] at h2
                exact absurd h2 (by simp)
              · rw [if_neg hyz, if_neg hzy] at h2
                rw [if_neg (by omega), if_neg (by omega)]
                exact ih ys zs h1 h2

theorem strLt_asymm (a b : String) (h : strLt a b = true) : strLt b a = false :=
  charListLt_asymm a.data b.data h

theorem strLt_trans (a b c : String) (h1 : strLt a b = true) (h2 : strLt b c = true) :
    strLt a c = true :=
  charListLt_trans a.data b.data c.data h1 h2

theorem insertStr_perm (a : String) (l : List String) : List.Perm (insertStr a l) (a :: l) := by
  induction l with
  | nil => exact List.Perm.refl _
  | cons b t ih =>
    simp only [insertStr]
    cases hab : strLt a b
    · simp only [Bool.false_eq_true, if_false]
      exact ((ih.cons b).trans (List.Perm.swap a b t))
    · simp only [if_true]
      exact List.Perm.refl _

theorem mem_insertStr (x a : String) (l : List String) :
    x ∈ insertStr a l ↔ x = a ∨ x ∈ l := by
  rw [(insertStr_perm a l).mem_iff]
  simp

theorem insertStr_ascending (a : String) (l : List String) (h : StrAscending l) :
    StrAscending (insertStr a l) := by
  induction l with
  | nil => simp [insertStr, StrAscending]
  | cons b t ih =>
    rw [StrAscending, List.pairwise_cons] at h
    obtain ⟨hb, ht⟩ := h
    simp only [insertStr]
    cases hab : strLt a b
    · simp only [Bool.false_eq_true, if_false]
      rw [StrAscending, List.pairwise_cons]
      refine ⟨?_, ih ht⟩
      intro x hx
      rcases (mem_insertStr x a t).mp hx with rfl | hxt
      · exact hab
      · exact hb x hxt
    · simp only [if_true]
      rw [StrAscending, List.pairwise_cons]
      refine ⟨?_, List.pairwise_cons.mpr ⟨hb, ht⟩⟩
      intro x hx
      rcases List.mem_cons.mp hx with rfl | hxt
      · exact strLt_asymm a x hab
      · cases hxa : strLt x a
        · rfl
        · have : strLt x b = true := strLt_trans x a b hxa hab
          rw [hb x hxt] at this
          exact absurd this (by simp)

theorem sortStrings_perm (l : List String) : List.Perm (sortStrings l) l := by
  induction l with
  | nil => exact List.Perm.refl _
  | cons a t ih =>
    exact (insertStr_perm a (sortStrings t)).trans (ih.cons a)

theorem sortStrings_ascending (l : List String) : StrAscending (sortStrings l) := by
  induction l with
  | nil => simp [sortStrings, StrAscending]
  | cons a t ih => exact insertStr_ascending a (sortStrings t) ih

end DockerRegistry

namespace DockerRegistry

/-! ## Sweep lemmas for `_delete_unreferenced_blobs` -/

theorem sweep_foldl_none_preserved (c : String → Bool) (cands : List String)
    (bs : List (String × Bytes)) (k : String) (h : alookup bs k = none) :
    alookup (cands.foldl
      (fun acc d => if c d then acc else aerase acc (get_blob_path d)) bs) k = none := by
  induction cands generalizing bs with
  | nil => simpa using h
  | cons d t ih =>
    simp only [List.foldl_cons]
    cases hc : c d
    · simp only [hc, Bool.false_eq_true, if_false]
      refine ih _ ?_
      rw [alookup_aerase]
      by_cases hk : get_blob_path d = k
      · simp [hk]
      · simp [hk, h]
    · simp only [hc, if_true]
      exact ih bs h

theorem sweep_foldl_lookup_none (c : String → Bool) (cands : List String)
    (bs : List (String × Bytes)) (k : String)
    (h : ∃ d ∈ cands, c d = false ∧ get_blob_path d = k) :
    alookup (cands.foldl
      (fun acc d => if c d then acc else aerase acc (get_blob_path d)) bs) k = none := by
  induction cands generalizing bs with
  | nil =>
    rcases h with ⟨d, hd, _⟩
    simp at hd
  | cons d t ih =>
    simp only [List.foldl_cons]
    rcases h with ⟨d', hd', hc', hk'⟩
    rcases List.mem_cons.mp hd' with rfl | hmem
    · simp only [hc', Bool.false_eq_true, if_false]
      apply sweep_foldl_none_preserved
      rw [alookup_aerase, if_pos hk']
    · cases hc : c d
      · simp only [hc, Bool.false_eq_true, if_false]
        exact ih _ ⟨d', hmem, hc', hk'⟩
      · simp only [hc, if_true]
        exact ih bs ⟨d', hmem, hc', hk'⟩

theorem sweep_foldl_lookup_skip (c : String → Bool) (cands : List String)
    (bs : List (String × Bytes)) (k : String)
    (h : ∀ d ∈ cands, c d = true ∨ get_blob_path d ≠ k) :
    alookup (cands.foldl
      (fun acc d => if c d then acc else aerase acc (get_blob_path d)) bs) k
      = alookup bs k := by
  induction cands generalizing bs with
  | nil => simp
  | cons d t ih =>
    simp only [List.foldl_cons]
    have hrest : ∀ d' ∈ t, c d' = true ∨ get_blob_path d' ≠ k :=
      fun d' hd' => h d' (List.mem_cons_of_mem d hd')
    rcases h d (List.mem_cons_self d t) with hc | hk
    · simp only [hc, if_true]
      exact ih bs hrest
    · cases hc : c d
      · simp only [hc, Bool.false_eq_true, if_false]
        rw [ih _ hrest, alookup_aerase, if_neg hk]
      · simp only [hc, if_true]
        exact ih bs hrest

/-! ## The claim-level reference predicate and the bridge to
`_is_blob_referenced` -/

theorem excludedFile_eq_true_iff (repo tag twin a b : String) :
    excludedFile (some { name := repo, ref := tag, digestTwin := some twin }) a b = true
      ↔ (a = repo ∧ (b = tag ∨ b = twin)) := by
  simp [excludedFile, Bool.and_eq_true, Bool.or_eq_true, beq_iff_eq]

theorem is_blob_referenced_iff (env : Env) (ms : List (String × List (String × Bytes)))
    (d repo tag twin : String) :
    is_blob_referenced env ms d
        (some { name := repo, ref := tag, digestTwin := some twin }) = true
      ↔ referencesAnySurvivor env ms repo tag twin (normalizeDigest d) := by
  simp only [is_blob_referenced, List.any_eq_true, referencesAnySurvivor]
  constructor
  · rintro ⟨p, hp, fc, hfc, h⟩
    refine ⟨p, hp, fc, hfc, ?_, ?_⟩
    · intro hex
      rw [if_pos ((excludedFile_eq_true_iff repo tag twin p.1 fc.1).mpr hex)] at h
      exact absurd h (by simp)
    · by_cases hex : excludedFile
          (some { name := repo, ref := tag, digestTwin := some twin }) p.1 fc.1 = true
      · rw [if_pos hex] at h
        exact absurd h (by simp)
      · rw [if_neg hex] at h
        cases hparse : env.parse fc.2 with
        | none => rw [hparse] at h; exact absurd h (by simp)
        | some doc => rw [hparse] at h; exact ⟨doc, rfl, h⟩
  · rintro ⟨p, hp, fc, hfc, hnex, doc, hparse, href⟩
    refine ⟨p, hp, fc, hfc, ?_⟩
    have hex : excludedFile
        (some { name := repo, ref := tag, digestTwin := some twin }) p.1 fc.1 = false := by
      cases hx : excludedFile
          (some { name := repo, ref := tag, digestTwin := some twin }) p.1 fc.1
      · rfl
      · exact absurd ((excludedFile_eq_true_iff repo tag twin p.1 fc.1).mp hx) hnex
    rw [if_neg (by rw [hex]; simp), hparse]
    exact href

end DockerRegistry

namespace DockerRegistry

/-! ## Claim C1: incremental GC on manifest delete -/

/-- C1: after a DELETE of a tagged manifest, each blob digest the
manifest references is removed from the blob directory exactly when no
surviving manifest file — the deleted tag file and its digest twin
excluded — references that digest; a referenced digest's blob entry is
left untouched.  (The injectivity hypothesis states that candidate
digests naming the same blob file agree after digest normalization,
which holds for well-formed `sha256:`-prefixed digests.) -/
theorem c1_delete_manifest_gc (env : Env) (st : RegState) (repo tag : String)
    (files : List (String × Bytes)) (content : Bytes) (doc : ManifestDoc)
    (htag : strStartsWith tag "sha256:" = false)
    (hrepo : alookup st.manifests repo = some files)
    (hfile : alookup files tag = some content)
    (hparse : env.parse content = some doc)
    (hinj : ∀ d1 ∈ refsOf doc, ∀ d2 ∈ refsOf doc,
      get_blob_path d1 = get_blob_path d2 → normalizeDigest d1 = normalizeDigest d2) :
    (delete_manifest_tag env st repo tag).1.status = 202 ∧
    ∀ d ∈ refsOf doc,
      (¬ referencesAnySurvivor env st.manifests repo tag (env.hashHex content)
          (normalizeDigest d) →
        alookup (delete_manifest_tag env st repo tag).2.blobs (get_blob_path d) = none) ∧
      (referencesAnySurvivor env st.manifests repo tag (env.hashHex content)
          (normalizeDigest d) →
        alookup (delete_manifest_tag env st repo tag).2.blobs (get_blob_path d)
          = alookup st.blobs (get_blob_path d)) := by
  simp only [delete_manifest_tag, hrepo, hfile, hparse, delete_unreferenced_blobs]
  refine ⟨trivial, ?_⟩
  intro d hd
  constructor
  · intro hnot
    apply sweep_foldl_lookup_none
    refine ⟨d, hd, ?_, rfl⟩
    cases hc : is_blob_referenced env st.manifests d
        (some { name := repo, ref := tag, digestTwin := some (env.hashHex content) })
    · rfl
    · exact absurd ((is_blob_referenced_iff env st.manifests d repo tag
        (env.hashHex content)).mp hc) hnot
  · intro hyes
    apply sweep_foldl_lookup_skip
    intro d' hd'
    by_cases hbp : get_blob_path d' = get_blob_path d
    · left
      rw [is_blob_referenced_iff, hinj d' hd' d hd hbp]
      exact hyes
    · right
      exact hbp

/-- Witness for C1: the spec's own scenario, first step.  Repository
`repo` holds tags `M1` (referencing blobs `ha`, `hb`) and `M2`
(referencing `ha`) together with their digest twins; deleting `M1`
leaves the claim's equivalence for both referenced digests. -/
theorem c1_delete_manifest_gc_witness :
    (delete_manifest_tag sampleEnv sampleState "repo" "M1").1.status = 202 ∧
    ∀ d ∈ refsOf sampleDocM1,
      (¬ referencesAnySurvivor sampleEnv sampleState.manifests "repo" "M1"
          (sampleEnv.hashHex [1]) (normalizeDigest d) →
        alookup (delete_manifest_tag sampleEnv sampleState "repo" "M1").2.blobs
          (get_blob_path d) = none) ∧
      (referencesAnySurvivor sampleEnv sampleState.manifests "repo" "M1"
          (sampleEnv.hashHex [1]) (normalizeDigest d) →
        alookup (delete_manifest_tag sampleEnv sampleState "repo" "M1").2.blobs
          (get_blob_path d)
          = alookup sampleState.blobs (get_blob_path d)) :=
  c1_delete_manifest_gc sampleEnv sampleState "repo" "M1"
    [("M1", [1]), ("hm1", [1]), ("M2", [2]), ("hm2", [2])] [1] sampleDocM1
    (by decide) (by decide) (by decide) (by decide) (by decide)

end DockerRegistry

namespace DockerRegistry

/-! ## Claim C2: bulk GC postcondition -/

/-- C2: after a successful `POST /v2/gc` from a state in which every
manifest file parses, every file remaining in the blob directory is
referenced (through `config.digest`, a `layers[].digest` or a
`manifests[].digest`) by a surviving manifest, `removed_blobs` lists
exactly the blob files that were deleted, and the uploads directory is
empty. -/
theorem c2_bulk_gc_postcondition (env : Env) (st : RegState)
    (hparse : ∀ p ∈ st.manifests, ∀ fc ∈ p.2, (env.parse fc.2).isSome = true) :
    (∀ b ∈ (garbage_collection env st).2.blobs,
      ∃ p ∈ (garbage_collection env st).2.manifests, ∃ fc ∈ p.2,
        ∃ doc, env.parse fc.2 = some doc ∧ ∃ d ∈ refsOf doc, stripSha d = b.1) ∧
    (∀ x, x ∈ (garbage_collection env st).1.removed_blobs ↔
      ((∃ c, (x, c) ∈ st.blobs) ∧ ¬ ∃ c, (x, c) ∈ (garbage_collection env st).2.blobs)) ∧
    (garbage_collection env st).2.uploads = [] := by
  refine ⟨?_, ?_, rfl⟩
  · intro b hb
    simp only [garbage_collection] at hb ⊢
    rw [List.mem_filter] at hb
    have hused : b.1 ∈ gcUsedBlobs env st.manifests := by
      have h2 := hb.2
      simpa using h2
    rw [gcUsedBlobs, List.mem_flatMap] at hused
    obtain ⟨p, hp, h2⟩ := hused
    rw [List.mem_flatMap] at h2
    obtain ⟨fc, hfc, h3⟩ := h2
    cases hpc : env.parse fc.2 with
    | none => rw [hpc] at h3; simp at h3
    | some doc =>
      rw [hpc] at h3
      rw [List.mem_map] at h3
      obtain ⟨d, hd, hds⟩ := h3
      exact ⟨p, hp, fc, hfc, doc, hpc, d, hd, hds⟩
  · intro x
    simp only [garbage_collection, List.mem_map, List.mem_filter]
    constructor
    · rintro ⟨b, ⟨hbmem, hbnot⟩, rfl⟩
      refine ⟨⟨b.2, hbmem⟩, ?_⟩
      rintro ⟨c, hc, hcont⟩
      rw [Bool.not_eq_true'] at hbnot
      rw [hbnot] at hcont
      exact absurd hcont (by simp)
    · rintro ⟨⟨c, hcmem⟩, hnot⟩
      refine ⟨(x, c), ⟨hcmem, ?_⟩, rfl⟩
      rw [Bool.not_eq_true']
      cases hcont : (gcUsedBlobs env st.manifests).contains x
      · rfl
      · exact absurd ⟨c, hcmem, hcont⟩ hnot

/-- Witness for C2: a state with a referenced blob `ha`, an orphan blob
and a stale upload session; all manifest files parse. -/
theorem c2_bulk_gc_postcondition_witness :
    (∀ b ∈ (garbage_collection sampleEnv
        { blobs := [("ha", [11]), ("orphan", [99])],
          uploads := [("u", [5])],
          manifests := [("repo", [("M2", [2]), ("hm2", [2])])] }).2.blobs,
      ∃ p ∈ (garbage_collection sampleEnv
        { blobs := [("ha", [11]), ("orphan", [99])],
          uploads := [("u", [5])],
          manifests := [("repo", [("M2", [2]), ("hm2", [2])])] }).2.manifests, ∃ fc ∈ p.2,
        ∃ doc, sampleEnv.parse fc.2 = some doc ∧ ∃ d ∈ refsOf doc, stripSha d = b.1) ∧
    (∀ x, x ∈ (garbage_collection sampleEnv
        { blobs := [("ha", [11]), ("orphan", [99])],
          uploads := [("u", [5])],
          manifests := [("repo", [("M2", [2]), ("hm2", [2])])] }).1.removed_blobs ↔
      ((∃ c, (x, c) ∈ [("ha", ([11] : Bytes)), ("orphan", [99])]) ∧
        ¬ ∃ c, (x, c) ∈ (garbage_collection sampleEnv
        { blobs := [("ha", [11]), ("orphan", [99])],
          uploads := [("u", [5])],
          manifests := [("repo", [("M2", [2]), ("hm2", [2])])] }).2.blobs)) ∧
    (garbage_collection sampleEnv
        { blobs := [("ha", [11]), ("orphan", [99])],
          uploads := [("u", [5])],
          manifests := [("repo", [("M2", [2]), ("hm2", [2])])] }).2.uploads = [] :=
  c2_bulk_gc_postcondition sampleEnv
    { blobs := [("ha", [11]), ("orphan", [99])],
      uploads := [("u", [5])],
      manifests := [("repo", [("M2", [2]), ("hm2", [2])])] }
    (by decide)

end DockerRegistry

namespace DockerRegistry

/-! ## Claim C3: failed finalize and the session file -/

/-- Counterexample to C3 as stated: a finalize with the `digest` query
parameter absent fails 400 `DIGEST_INVALID`, yet the session file is
left on disk — the failed finalize is retryable in this case. -/
theorem c3_counterexample :
    (complete_blob_upload sampleEnv
      { blobs := [], uploads := [("u", [5])], manifests := [] } "u" none).1
      = { status := 400, errorCode := some "DIGEST_INVALID" } ∧
    (complete_blob_upload sampleEnv
      { blobs := [], uploads := [("u", [5])], manifests := [] } "u" none).2.uploads
      = [("u", [5])] := by
  decide

/-- C3 (amended): a finalize on an existing session that fails
`DIGEST_INVALID` destroys the session file only in the hash-mismatch
case; when the declared digest is absent the handler returns 400
`DIGEST_INVALID` with the state unchanged, so that failure is
retryable. -/
theorem c3_finalize_digest_invalid (env : Env) (st : RegState) (upload_id : String)
    (content : Bytes) (h : alookup st.uploads upload_id = some content) :
    ((complete_blob_upload env st upload_id none).1
        = { status := 400, errorCode := some "DIGEST_INVALID" } ∧
      (complete_blob_upload env st upload_id none).2 = st) ∧
    (∀ d, d ≠ fullDigest env content →
      (complete_blob_upload env st upload_id (some d)).1
          = { status := 400, errorCode := some "DIGEST_INVALID" } ∧
      (complete_blob_upload env st upload_id (some d)).2.uploads
          = aerase st.uploads upload_id ∧
      alookup (complete_blob_upload env st upload_id (some d)).2.uploads upload_id = none ∧
      (complete_blob_upload env st upload_id (some d)).2.blobs = st.blobs) := by
  constructor
  · simp [complete_blob_upload, h]
  · intro d hd
    simp only [complete_blob_upload, h]
    rw [if_pos hd]
    refine ⟨rfl, rfl, ?_, rfl⟩
    rw [alookup_aerase]
    simp

/-- Witness for C3 (amended): session `u` with content `[5]`, declared
digest `"sha256:bad"` mismatching the content hash. -/
theorem c3_finalize_digest_invalid_witness :
    ((complete_blob_upload sampleEnv
        { blobs := [], uploads := [("u", [5])], manifests := [] } "u" none).1
        = { status := 400, errorCode := some "DIGEST_INVALID" } ∧
      (complete_blob_upload sampleEnv
        { blobs := [], uploads := [("u", [5])], manifests := [] } "u" none).2
        = { blobs := [], uploads := [("u", [5])], manifests := [] }) ∧
    ((complete_blob_upload sampleEnv
        { blobs := [], uploads := [("u", [5])], manifests := [] } "u"
        (some "sha256:bad")).1
        = { status := 400, errorCode := some "DIGEST_INVALID" } ∧
      (complete_blob_upload sampleEnv
        { blobs := [], uploads := [("u", [5])], manifests := [] } "u"
        (some "sha256:bad")).2.uploads
        = aerase [("u", [5])] "u" ∧
      alookup (complete_blob_upload sampleEnv
        { blobs := [], uploads := [("u", [5])], manifests := [] } "u"
        (some "sha256:bad")).2.uploads "u" = none ∧
      (complete_blob_upload sampleEnv
        { blobs := [], uploads := [("u", [5])], manifests := [] } "u"
        (some "sha256:bad")).2.blobs = []) :=
  ⟨(c3_finalize_digest_invalid sampleEnv
      { blobs := [], uploads := [("u", [5])], manifests := [] } "u" [5] (by decide)).1,
   (c3_finalize_digest_invalid sampleEnv
      { blobs := [], uploads := [("u", [5])], manifests := [] } "u" [5] (by decide)).2
      "sha256:bad" (by decide)⟩

end DockerRegistry

namespace DockerRegistry

/-! ## Claim C4: tag PUT and the digest-address twin -/

/-- Counterexample to C4 as stated: a digest-addressed PUT first plants
body `[2]` at file `hm1` without verification; a subsequent successful
tag PUT of body `[1]` (whose hash is `hm1`) skips the existing digest
file, so the digest-address file is not byte-identical to the tag
file. -/
theorem c4_counterexample :
    (put_manifest sampleEnv
      (put_manifest sampleEnv { blobs := [], uploads := [], manifests := [] }
        "r" "sha256:hm1" MANIFEST_V2 [2]).2
      "r" "t" MANIFEST_V2 [1]).1.status = 201 ∧
    alookup (repoFiles
      (put_manifest sampleEnv
        (put_manifest sampleEnv { blobs := [], uploads := [], manifests := [] }
          "r" "sha256:hm1" MANIFEST_V2 [2]).2
        "r" "t" MANIFEST_V2 [1]).2 "r") "t" = some [1] ∧
    sampleEnv.hashHex [1] = "hm1" ∧
    alookup (repoFiles
      (put_manifest sampleEnv
        (put_manifest sampleEnv { blobs := [], uploads := [], manifests := [] }
          "r" "sha256:hm1" MANIFEST_V2 [2]).2
        "r" "t" MANIFEST_V2 [1]).2 "r") "hm1" = some [2] ∧
    ([2] : Bytes) ≠ [1] := by
  decide

/-- C4 (amended): a successful manifest PUT via a tag writes the tag
file and guarantees a digest-address file named by the hash of the
body; when no file of that name existed before the PUT, the
digest-address file is byte-identical to the tag file; a pre-existing
digest-address file (distinct from the tag name) is skipped and left
unchanged. -/
theorem c4_tag_digest_twin (env : Env) (st : RegState)
    (repo tag contentType : String) (body : Bytes) (doc : ManifestDoc)
    (htag : strStartsWith tag "sha256:" = false)
    (hct : contentTypeOk contentType = true)
    (hparse : env.parse body = some doc)
    (hmt : mediaTypeBad doc = false) :
    (put_manifest env st repo tag contentType body).1.status = 201 ∧
    alookup (repoFiles (put_manifest env st repo tag contentType body).2 repo) tag
      = some body ∧
    (alookup (repoFiles st repo) (env.hashHex body) = none →
      alookup (repoFiles (put_manifest env st repo tag contentType body).2 repo)
        (env.hashHex body) = some body) ∧
    (∀ c, tag ≠ env.hashHex body →
      alookup (repoFiles st repo) (env.hashHex body) = some c →
      alookup (repoFiles (put_manifest env st repo tag contentType body).2 repo)
        (env.hashHex body) = some c) := by
  have hfiles : (alookup (if (alookup st.manifests repo).isSome then st.manifests
      else st.manifests ++ [(repo, [])]) repo).getD [] = repoFiles st repo := by
    cases hsr : alookup st.manifests repo with
    | none =>
      simp only [repoFiles, hsr, Option.isSome_none, Bool.false_eq_true, if_false]
      rw [alookup_append_left_none st.manifests [(repo, [])] repo hsr]
      simp [alookup]
    | some fs => simp [repoFiles, hsr]
  simp only [put_manifest, get_manifest_path, hparse, hct, hmt, htag, not_true,
    Bool.true_eq_false, Bool.false_eq_true, if_false, not_false_iff, if_true,
    Bool.not_true, Bool.not_false, repoFiles, hfiles]
  refine ⟨trivial, ?_, ?_, ?_⟩
  · by_cases hx : (alookup (aset ((alookup st.manifests repo).getD []) tag body)
        (env.hashHex body)).isSome = true
    · rw [if_pos hx, alookup_aset_self]
      simp only [Option.getD_some]
      rw [alookup_aset_self]
    · rw [if_neg hx, alookup_aset_self]
      simp only [Option.getD_some]
      by_cases htg : tag = env.hashHex body
      · exfalso
        apply hx
        rw [← htg, alookup_aset_self]
        rfl
      · rw [alookup_aset_ne _ _ _ _ (fun h => htg h.symm), alookup_aset_self]
  · intro hfresh
    by_cases htg : tag = env.hashHex body
    · have hx : (alookup (aset ((alookup st.manifests repo).getD []) tag body)
          (env.hashHex body)).isSome = true := by
        rw [← htg, alookup_aset_self]
        rfl
      rw [if_pos hx, alookup_aset_self]
      simp only [Option.getD_some]
      rw [← htg, alookup_aset_self]
    · have hx : ¬ (alookup (aset ((alookup st.manifests repo).getD []) tag body)
          (env.hashHex body)).isSome = true := by
        rw [alookup_aset_ne _ _ _ _ htg, hfresh]
        simp
      rw [if_neg hx, alookup_aset_self]
      simp only [Option.getD_some]
      rw [alookup_aset_self]
  · intro c htg hpre
    have hx : alookup (aset ((alookup st.manifests repo).getD []) tag body)
        (env.hashHex body) = some c := by
      rw [alookup_aset_ne _ _ _ _ htg, hpre]
    have hx2 : (alookup (aset ((alookup st.manifests repo).getD []) tag body)
        (env.hashHex body)).isSome = true := by
      rw [hx]
      rfl
    rw [if_pos hx2, alookup_aset_self]
    simp only [Option.getD_some]
    exact hx

/-- Witness for C4 (amended): a fresh repository, tag `t`, body `[1]`. -/
theorem c4_tag_digest_twin_witness :
    (put_manifest sampleEnv { blobs := [], uploads := [], manifests := [] }
      "r" "t" MANIFEST_V2 [1]).1.status = 201 ∧
    alookup (repoFiles (put_manifest sampleEnv
      { blobs := [], uploads := [], manifests := [] } "r" "t" MANIFEST_V2 [1]).2 "r") "t"
      = some [1] ∧
    (alookup (repoFiles { blobs := [], uploads := [], manifests := [] } "r")
        (sampleEnv.hashHex [1]) = none →
      alookup (repoFiles (put_manifest sampleEnv
        { blobs := [], uploads := [], manifests := [] } "r" "t" MANIFEST_V2 [1]).2 "r")
        (sampleEnv.hashHex [1]) = some [1]) ∧
    (∀ c, "t" ≠ sampleEnv.hashHex [1] →
      alookup (repoFiles { blobs := [], uploads := [], manifests := [] } "r")
        (sampleEnv.hashHex [1]) = some c →
      alookup (repoFiles (put_manifest sampleEnv
        { blobs := [], uploads := [], manifests := [] } "r" "t" MANIFEST_V2 [1]).2 "r")
        (sampleEnv.hashHex [1]) = some c) :=
  c4_tag_digest_twin sampleEnv { blobs := [], uploads := [], manifests := [] }
    "r" "t" MANIFEST_V2 [1] sampleDocM1 (by decide) (by decide) (by decide) (by decide)

end DockerRegistry

namespace DockerRegistry

/-! ## Helper lemmas on `put_manifest` -/

theorem put_tag_file_lookup (env : Env) (st : RegState)
    (repo tag contentType : String) (body : Bytes) (doc : ManifestDoc)
    (htag : strStartsWith tag "sha256:" = false)
    (hct : contentTypeOk contentType = true)
    (hparse : env.parse body = some doc)
    (hmt : mediaTypeBad doc = false) :
    alookup (repoFiles (put_manifest env st repo tag contentType body).2 repo) tag
      = some body := by
  have hfiles : (alookup (if (alookup st.manifests repo).isSome then st.manifests
      else st.manifests ++ [(repo, [])]) repo).getD [] = repoFiles st repo := by
    cases hsr : alookup st.manifests repo with
    | none =>
      simp only [repoFiles, hsr, Option.isSome_none, Bool.false_eq_true, if_false]
      rw [alookup_append_left_none st.manifests [(repo, [])] repo hsr]
      simp [alookup]
    | some fs => simp [repoFiles, hsr]
  simp only [put_manifest, get_manifest_path, hparse, hct, hmt, htag, not_true,
    Bool.true_eq_false, Bool.false_eq_true, if_false, not_false_iff, if_true,
    Bool.not_true, Bool.not_false, repoFiles, hfiles]
  by_cases hx : (alookup (aset ((alookup st.manifests repo).getD []) tag body)
      (env.hashHex body)).isSome = true
  · rw [if_pos hx, alookup_aset_self]
    simp only [Option.getD_some]
    rw [alookup_aset_self]
  · rw [if_neg hx, alookup_aset_self]
    simp only [Option.getD_some]
    by_cases htg : tag = env.hashHex body
    · exfalso
      apply hx
      rw [← htg, alookup_aset_self]
      rfl
    · rw [alookup_aset_ne _ _ _ _ (fun h => htg h.symm), alookup_aset_self]

theorem put_twin_file_lookup (env : Env) (st : RegState)
    (repo tag contentType : String) (body : Bytes) (doc : ManifestDoc)
    (htag : strStartsWith tag "sha256:" = false)
    (hct : contentTypeOk contentType = true)
    (hparse : env.parse body = some doc)
    (hmt : mediaTypeBad doc = false)
    (hfresh : alookup (repoFiles st repo) (env.hashHex body) = none) :
    alookup (repoFiles (put_manifest env st repo tag contentType body).2 repo)
      (env.hashHex body) = some body := by
  simp only [repoFiles] at hfresh
  have hfiles : (alookup (if (alookup st.manifests repo).isSome then st.manifests
      else st.manifests ++ [(repo, [])]) repo).getD [] = repoFiles st repo := by
    cases hsr : alookup st.manifests repo with
    | none =>
      simp only [repoFiles, hsr, Option.isSome_none, Bool.false_eq_true, if_false]
      rw [alookup_append_left_none st.manifests [(repo, [])] repo hsr]
      simp [alookup]
    | some fs => simp [repoFiles, hsr]
  simp only [put_manifest, get_manifest_path, hparse, hct, hmt, htag, not_true,
    Bool.true_eq_false, Bool.false_eq_true, if_false, not_false_iff, if_true,
    Bool.not_true, Bool.not_false, repoFiles, hfiles]
  by_cases htg : tag = env.hashHex body
  · have hx : (alookup (aset ((alookup st.manifests repo).getD []) tag body)
        (env.hashHex body)).isSome = true := by
      rw [← htg, alookup_aset_self]
      rfl
    rw [if_pos hx, alookup_aset_self]
    simp only [Option.getD_some]
    rw [← htg, alookup_aset_self]
  · have hx : ¬ (alookup (aset ((alookup st.manifests repo).getD []) tag body)
        (env.hashHex body)).isSome = true := by
      rw [alookup_aset_ne _ _ _ _ htg, hfresh]
      simp
    rw [if_neg hx, alookup_aset_self]
    simp only [Option.getD_some]
    rw [alookup_aset_self]

/-! ## Claim C5: round trip via the served-bytes digest -/

/-- Counterexample to C5 as stated, in two parts.  First: PUT a body
without `mediaType` (byte string `[3]`); GET by tag serves the
re-serialized bytes `[4]` with digest `sha256:hm4` — but a GET
addressed by that served-bytes digest finds no file and fails 404,
because both stored files still hash to `hm3`.  Second: even for a
body `[1]` with an explicit `mediaType` (served verbatim, digest
`sha256:hm1`), a differing body `[2]` planted beforehand at the
digest-address name `hm1` by an unverified digest-addressed PUT is
what the digest GET serves — 200 with bytes `[2]`, not byte-identical
to the served `[1]`. -/
theorem c5_counterexample :
    ((get_manifest sampleEnv
      (put_manifest sampleEnv { blobs := [], uploads := [], manifests := [] }
        "r" "t" MANIFEST_V2 [3]).2 "r" "t").body = some [4] ∧
    (get_manifest sampleEnv
      (put_manifest sampleEnv { blobs := [], uploads := [], manifests := [] }
        "r" "t" MANIFEST_V2 [3]).2 "r" "t").digestHeader = some "sha256:hm4" ∧
    sampleEnv.hashHex [4] = "hm4" ∧
    (get_manifest sampleEnv
      (put_manifest sampleEnv { blobs := [], uploads := [], manifests := [] }
        "r" "t" MANIFEST_V2 [3]).2 "r" "sha256:hm4").status = 404 ∧
    (get_manifest sampleEnv
      (put_manifest sampleEnv { blobs := [], uploads := [], manifests := [] }
        "r" "t" MANIFEST_V2 [3]).2 "r" "sha256:hm4").errorCode
      = some "MANIFEST_UNKNOWN") ∧
    ((get_manifest sampleEnv
      (put_manifest sampleEnv
        (put_manifest sampleEnv { blobs := [], uploads := [], manifests := [] }
          "r" "sha256:hm1" MANIFEST_V2 [2]).2
        "r" "t" MANIFEST_V2 [1]).2 "r" "t").body = some [1] ∧
    (get_manifest sampleEnv
      (put_manifest sampleEnv
        (put_manifest sampleEnv { blobs := [], uploads := [], manifests := [] }
          "r" "sha256:hm1" MANIFEST_V2 [2]).2
        "r" "t" MANIFEST_V2 [1]).2 "r" "t").digestHeader = some "sha256:hm1" ∧
    (get_manifest sampleEnv
      (put_manifest sampleEnv
        (put_manifest sampleEnv { blobs := [], uploads := [], manifests := [] }
          "r" "sha256:hm1" MANIFEST_V2 [2]).2
        "r" "t" MANIFEST_V2 [1]).2 "r" "sha256:hm1").status = 200 ∧
    (get_manifest sampleEnv
      (put_manifest sampleEnv
        (put_manifest sampleEnv { blobs := [], uploads := [], manifests := [] }
          "r" "sha256:hm1" MANIFEST_V2 [2]).2
        "r" "t" MANIFEST_V2 [1]).2 "r" "sha256:hm1").body = some [2] ∧
    (some ([2] : Bytes) : Option Bytes) ≠ some [1]) := by
  decide

/-- C5 (amended): for a valid manifest body that carries an explicit
(supported) `mediaType` — so that GET serves the stored bytes verbatim
— and whose digest-address name `hash(body)` is not already occupied
by a file in the repository before the PUT, the round trip holds:
after the tag PUT, GET by tag serves the body with digest
`hash(body)`, and a GET addressed by that digest returns
byte-identical content.  Both restrictions are necessary (see the
counterexample): a body without `mediaType` is re-serialized, so the
served-bytes digest resolves to no file; and a pre-existing file
planted at the digest-address name by an unverified digest-addressed
PUT is served in place of the tag body. -/
theorem c5_round_trip_digest (env : Env) (st : RegState)
    (repo tag contentType dref : String) (body : Bytes) (doc : ManifestDoc) (mt : String)
    (htag : strStartsWith tag "sha256:" = false)
    (hct : contentTypeOk contentType = true)
    (hparse : env.parse body = some doc)
    (hmtv : doc.mediaType = some mt)
    (hmt : mediaTypeBad doc = false)
    (hfresh : alookup (repoFiles st repo) (env.hashHex body) = none)
    (hdref : get_manifest_path dref = env.hashHex body) :
    (get_manifest env (put_manifest env st repo tag contentType body).2 repo tag).status
      = 200 ∧
    (get_manifest env (put_manifest env st repo tag contentType body).2 repo tag).body
      = some body ∧
    (get_manifest env (put_manifest env st repo tag contentType body).2
        repo tag).digestHeader = some (fullDigest env body) ∧
    (get_manifest env (put_manifest env st repo tag contentType body).2 repo dref).status
      = 200 ∧
    (get_manifest env (put_manifest env st repo tag contentType body).2 repo dref).body
      = some body := by
  have h1 := put_tag_file_lookup env st repo tag contentType body doc htag hct hparse hmt
  have h2 := put_twin_file_lookup env st repo tag contentType body doc htag hct hparse
    hmt hfresh
  simp only [repoFiles] at h1 h2
  have htagpath : get_manifest_path tag = tag := by
    simp [get_manifest_path, htag]
  constructor
  · simp only [get_manifest, htagpath, h1, hparse, hmtv]
  constructor
  · simp only [get_manifest, htagpath, h1, hparse, hmtv]
  constructor
  · simp only [get_manifest, htagpath, h1, hparse, hmtv]
  constructor
  · simp only [get_manifest, hdref, h2, hparse, hmtv]
  · simp only [get_manifest, hdref, h2, hparse, hmtv]

/-- Witness for C5 (amended): body `[1]` with explicit `mediaType`,
tag `t`, digest reference `sha256:hm1`. -/
theorem c5_round_trip_digest_witness :
    (get_manifest sampleEnv (put_manifest sampleEnv
        { blobs := [], uploads := [], manifests := [] }
        "r" "t" MANIFEST_V2 [1]).2 "r" "t").status = 200 ∧
    (get_manifest sampleEnv (put_manifest sampleEnv
        { blobs := [], uploads := [], manifests := [] }
        "r" "t" MANIFEST_V2 [1]).2 "r" "t").body = some [1] ∧
    (get_manifest sampleEnv (put_manifest sampleEnv
        { blobs := [], uploads := [], manifests := [] }
        "r" "t" MANIFEST_V2 [1]).2 "r" "t").digestHeader
      = some (fullDigest sampleEnv [1]) ∧
    (get_manifest sampleEnv (put_manifest sampleEnv
        { blobs := [], uploads := [], manifests := [] }
        "r" "t" MANIFEST_V2 [1]).2 "r" "sha256:hm1").status = 200 ∧
    (get_manifest sampleEnv (put_manifest sampleEnv
        { blobs := [], uploads := [], manifests := [] }
        "r" "t" MANIFEST_V2 [1]).2 "r" "sha256:hm1").body = some [1] :=
  c5_round_trip_digest sampleEnv { blobs := [], uploads := [], manifests := [] }
    "r" "t" MANIFEST_V2 "sha256:hm1" [1] sampleDocM1 MANIFEST_V2
    (by decide) (by decide) (by decide) (by decide) (by decide) (by decide) (by decide)

end DockerRegistry

namespace DockerRegistry

/-! ## Claim C6: mediaType injection on GET -/

/-- C6: for a stored manifest whose JSON lacks `mediaType`, GET serves
the re-serialized body with `mediaType` set to the v2 default, and the
`Docker-Content-Digest` header hashes the served (post-injection)
bytes — differing from the stored bytes' digest whenever the hashes
differ; for a stored manifest already carrying a supported `mediaType`,
the stored bytes are served unchanged with their own digest. -/
theorem c6_mediatype_injection (env : Env) (st : RegState) (repo ref : String)
    (content : Bytes) (doc : ManifestDoc)
    (hfile : alookup (repoFiles st repo) (get_manifest_path ref) = some content)
    (hparse : env.parse content = some doc) :
    (doc.mediaType = none →
      (get_manifest env st repo ref).body
          = some (env.dumps { doc with mediaType := some MANIFEST_V2 }) ∧
      (get_manifest env st repo ref).contentType = some MANIFEST_V2 ∧
      (get_manifest env st repo ref).digestHeader
          = some (fullDigest env (env.dumps { doc with mediaType := some MANIFEST_V2 })) ∧
      (fullDigest env (env.dumps { doc with mediaType := some MANIFEST_V2 })
          ≠ fullDigest env content →
        (get_manifest env st repo ref).digestHeader ≠ some (fullDigest env content))) ∧
    (∀ mt, doc.mediaType = some mt → mt ∈ SUPPORTED_MANIFEST_TYPES →
      (get_manifest env st repo ref).body = some content ∧
      (get_manifest env st repo ref).contentType = some mt ∧
      (get_manifest env st repo ref).digestHeader = some (fullDigest env content)) := by
  simp only [repoFiles] at hfile
  constructor
  · intro hmt
    simp only [get_manifest, hfile, hparse, hmt]
    refine ⟨trivial, trivial, trivial, ?_⟩
    intro hne h
    exact hne (Option.some.inj h)
  · intro mt hmt hsup
    simp only [get_manifest, hfile, hparse, hmt]
    exact ⟨trivial, trivial, trivial⟩

/-- Witness for C6: repository `r` stores byte string `[3]`, a manifest
without a `mediaType` field, under tag `t`. -/
theorem c6_mediatype_injection_witness :
    (sampleDocNoMT.mediaType = none →
      (get_manifest sampleEnv
        { blobs := [], uploads := [], manifests := [("r", [("t", [3])])] } "r" "t").body
          = some (sampleEnv.dumps { sampleDocNoMT with mediaType := some MANIFEST_V2 }) ∧
      (get_manifest sampleEnv
        { blobs := [], uploads := [], manifests := [("r", [("t", [3])])] } "r"
        "t").contentType = some MANIFEST_V2 ∧
      (get_manifest sampleEnv
        { blobs := [], uploads := [], manifests := [("r", [("t", [3])])] } "r"
        "t").digestHeader
          = some (fullDigest sampleEnv
              (sampleEnv.dumps { sampleDocNoMT with mediaType := some MANIFEST_V2 })) ∧
      (fullDigest sampleEnv
          (sampleEnv.dumps { sampleDocNoMT with mediaType := some MANIFEST_V2 })
          ≠ fullDigest sampleEnv [3] →
        (get_manifest sampleEnv
          { blobs := [], uploads := [], manifests := [("r", [("t", [3])])] } "r"
          "t").digestHeader ≠ some (fullDigest sampleEnv [3]))) ∧
    (∀ mt, sampleDocNoMT.mediaType = some mt → mt ∈ SUPPORTED_MANIFEST_TYPES →
      (get_manifest sampleEnv
        { blobs := [], uploads := [], manifests := [("r", [("t", [3])])] } "r" "t").body
          = some [3] ∧
      (get_manifest sampleEnv
        { blobs := [], uploads := [], manifests := [("r", [("t", [3])])] } "r"
        "t").contentType = some mt ∧
      (get_manifest sampleEnv
        { blobs := [], uploads := [], manifests := [("r", [("t", [3])])] } "r"
        "t").digestHeader = some (fullDigest sampleEnv [3])) :=
  c6_mediatype_injection sampleEnv
    { blobs := [], uploads := [], manifests := [("r", [("t", [3])])] } "r" "t" [3]
    sampleDocNoMT (by decide) (by decide)

end DockerRegistry

namespace DockerRegistry

/-! ## Claim C7: PATCH Content-Range handling -/

/-- C7: on an existing upload session of current size `s`, a PATCH
with no `Content-Range`, or with a well-formed range starting exactly
at `s`, appends the request bytes and answers 202 with
`Range: 0-(new size - 1)`; a range starting elsewhere, or a malformed
range, fails 400 `BLOB_UPLOAD_INVALID` with the state unchanged. -/
theorem c7_patch_content_range (st : RegState) (upload_id : String)
    (content body : Bytes) (h : alookup st.uploads upload_id = some content) :
    ((upload_blob st upload_id none body).1.status = 202 ∧
     (upload_blob st upload_id none body).1.rangeHeader
        = some ("0-" ++ toString (((content ++ body).length : Int) - 1)) ∧
     alookup (upload_blob st upload_id none body).2.uploads upload_id
        = some (content ++ body)) ∧
    (∀ s a b x y, splitDash s = [a, b] → intOfStr a = some x → intOfStr b = some y →
      x = (content.length : Int) →
      (upload_blob st upload_id (some s) body).1.status = 202 ∧
      (upload_blob st upload_id (some s) body).1.rangeHeader
        = some ("0-" ++ toString (((content ++ body).length : Int) - 1)) ∧
      alookup (upload_blob st upload_id (some s) body).2.uploads upload_id
        = some (content ++ body)) ∧
    (∀ s a b x y, splitDash s = [a, b] → intOfStr a = some x → intOfStr b = some y →
      x ≠ (content.length : Int) →
      (upload_blob st upload_id (some s) body).1
        = { status := 400, errorCode := some "BLOB_UPLOAD_INVALID" } ∧
      (upload_blob st upload_id (some s) body).2 = st) ∧
    (∀ s, ((∀ a b, splitDash s ≠ [a, b]) ∨
        (∃ a b, splitDash s = [a, b] ∧ (intOfStr a = none ∨ intOfStr b = none))) →
      (upload_blob st upload_id (some s) body).1
        = { status := 400, errorCode := some "BLOB_UPLOAD_INVALID" } ∧
      (upload_blob st upload_id (some s) body).2 = st) := by
  refine ⟨?_, ?_, ?_, ?_⟩
  · simp only [upload_blob, h, if_true]
    exact ⟨by trivial, by trivial, by rw [alookup_aset_self]⟩
  · intro s a b x y hsp hia hib hx
    have hbeq : (x == (content.length : Int)) = true := by
      rw [hx]
      simp
    simp only [upload_blob, h, hsp, hia, hib, hbeq, if_true]
    exact ⟨by trivial, by trivial, by rw [alookup_aset_self]⟩
  · intro s a b x y hsp hia hib hx
    have hbeq : (x == (content.length : Int)) = false := by
      simp [hx]
    simp only [upload_blob, h, hsp, hia, hib, hbeq, Bool.false_eq_true, if_false]
    exact ⟨by trivial, by trivial⟩
  · intro s hmal
    have hok : (match splitDash s with
        | [a, b] =>
          match intOfStr a, intOfStr b with
          | some x, some _ => x == ((content.length : Nat) : Int)
          | _, _ => false
        | _ => false) = false := by
      rcases hmal with hne | ⟨a, b, hsp, hbad⟩
      · cases hsp : splitDash s with
        | nil => rfl
        | cons a t =>
          cases t with
          | nil => rfl
          | cons b t2 =>
            cases t2 with
            | nil => exact absurd hsp (hne a b)
            | cons c t3 => rfl
      · rw [hsp]
        show (match intOfStr a, intOfStr b with
          | some x, some _ => x == (content.length : Int)
          | _, _ => false) = false
        rcases hbad with hba | hbb
        · rw [hba]
        · rw [hbb]
          cases ha2 : intOfStr a <;> rfl
    simp only [upload_blob, h, hok, Bool.false_eq_true, if_false]
    exact ⟨by trivial, by trivial⟩

/-- Witness for C7: session `u` holding one byte; an append with no
range, an append with range `1-5`, a mismatching range `0-5`, a
malformed range `x-5`. -/
theorem c7_patch_content_range_witness :
    ((upload_blob { blobs := [], uploads := [("u", [7])], manifests := [] } "u" none
        [8, 9]).1.status = 202 ∧
     (upload_blob { blobs := [], uploads := [("u", [7])], manifests := [] } "u" none
        [8, 9]).1.rangeHeader
        = some ("0-" ++ toString ((([7] ++ [8, 9] : Bytes).length : Int) - 1)) ∧
     alookup (upload_blob { blobs := [], uploads := [("u", [7])], manifests := [] } "u"
        none [8, 9]).2.uploads "u" = some ([7] ++ [8, 9])) ∧
    ((upload_blob { blobs := [], uploads := [("u", [7])], manifests := [] } "u"
        (some "1-5") [8, 9]).1.status = 202 ∧
     (upload_blob { blobs := [], uploads := [("u", [7])], manifests := [] } "u"
        (some "1-5") [8, 9]).1.rangeHeader
        = some ("0-" ++ toString ((([7] ++ [8, 9] : Bytes).length : Int) - 1)) ∧
     alookup (upload_blob { blobs := [], uploads := [("u", [7])], manifests := [] } "u"
        (some "1-5") [8, 9]).2.uploads "u" = some ([7] ++ [8, 9])) ∧
    ((upload_blob { blobs := [], uploads := [("u", [7])], manifests := [] } "u"
        (some "0-5") [8, 9]).1
        = { status := 400, errorCode := some "BLOB_UPLOAD_INVALID" } ∧
     (upload_blob { blobs := [], uploads := [("u", [7])], manifests := [] } "u"
        (some "0-5") [8, 9]).2
        = { blobs := [], uploads := [("u", [7])], manifests := [] }) ∧
    ((upload_blob { blobs := [], uploads := [("u", [7])], manifests := [] } "u"
        (some "x-5") [8, 9]).1
        = { status := 400, errorCode := some "BLOB_UPLOAD_INVALID" } ∧
     (upload_blob { blobs := [], uploads := [("u", [7])], manifests := [] } "u"
        (some "x-5") [8, 9]).2
        = { blobs := [], uploads := [("u", [7])], manifests := [] }) := by
  have H := c7_patch_content_range
    { blobs := [], uploads := [("u", [7])], manifests := [] } "u" [7] [8, 9] (by decide)
  exact ⟨H.1,
    H.2.1 "1-5" "1" "5" 1 5 (by decide) (by decide) (by decide) (by decide),
    H.2.2.1 "0-5" "0" "5" 0 5 (by decide) (by decide) (by decide) (by decide),
    H.2.2.2 "x-5" (Or.inr ⟨"x", "5", by decide, Or.inl (by decide)⟩)⟩

end DockerRegistry

namespace DockerRegistry

/-! ## Claim C8: pagination order -/

theorem charListLt_eq_of_both_false (a : List Char) : ∀ (b : List Char),
    charListLt a b = false → charListLt b a = false → a = b := by
  induction a with
  | nil =>
    intro b h1 h2
    cases b with
    | nil => rfl
    | cons c cs => simp [charListLt] at h1
  | cons x xs ih =>
    intro b h1 h2
    cases b with
    | nil => simp [charListLt] at h2
    | cons y ys =>
      simp only [charListLt] at h1 h2
      by_cases hxy : x.toNat < y.toNat
      · rw [if_pos hxy] at h1
        exact absurd h1 (by simp)
      · by_cases hyx : y.toNat < x.toNat
        · rw [if_pos hyx] at h2
          exact absurd h2 (by simp)
        · rw [if_neg hxy, if_neg hyx] at h1
          rw [if_neg hyx, if_neg hxy] at h2
          have hn2 : x.toNat = y.toNat := by omega
          have hc : x = y := Char.ext (UInt32.ext hn2)
          rw [hc, ih ys h1 h2]

theorem strLt_eq_of_both_false (a b : String) (h1 : strLt a b = false)
    (h2 : strLt b a = false) : a = b := by
  have hd : a.data = b.data := charListLt_eq_of_both_false a.data b.data h1 h2
  calc a = String.mk a.data := rfl
    _ = String.mk b.data := by rw [hd]
    _ = b := rfl

theorem ascending_perm_eq (l1 : List String) : ∀ (l2 : List String),
    StrAscending l1 → StrAscending l2 → List.Perm l1 l2 → l1 = l2 := by
  induction l1 with
  | nil =>
    intro l2 _ _ hp
    rw [hp.symm.eq_nil]
  | cons a t ih =>
    intro l2 h1 h2 hp
    cases l2 with
    | nil => exact absurd hp.eq_nil (by simp)
    | cons b t2 =>
      rw [StrAscending, List.pairwise_cons] at h1 h2
      have hab : a = b := by
        have ha2 : a ∈ b :: t2 := hp.mem_iff.mp (List.mem_cons_self a t)
        have hb1 : b ∈ a :: t := hp.mem_iff.mpr (List.mem_cons_self b t2)
        rcases List.mem_cons.mp ha2 with h | h
        · exact h
        · rcases List.mem_cons.mp hb1 with h' | h'
          · exact h'.symm
          · exact strLt_eq_of_both_false a b (h2.1 a h) (h1.1 b h')
      subst hab
      have hpt : List.Perm t t2 := hp.cons_inv
      rw [ih t2 (by exact h1.2) (by exact h2.2) hpt]

theorem pyTake_eq_of_le (n : Option Nat) (l : List String)
    (h : ∀ k, n = some k → l.length ≤ k) : pyTake n l = l := by
  cases n with
  | none => rfl
  | some k => exact List.take_of_length_le (h k rfl)

theorem pyLastFilter_eq_filter (last : String) (l : List String)
    (hne : ∀ r ∈ l, r ≠ "") :
    pyLastFilter last l = l.filter (fun r => strLt last r) := by
  by_cases h : last = ""
  · subst h
    rw [pyLastFilter, if_pos rfl]
    symm
    apply List.filter_eq_self.mpr
    intro r hr
    obtain ⟨d⟩ := r
    cases d with
    | nil => exact absurd rfl (hne (String.mk []) hr)
    | cons c cs => rfl
  · rw [pyLastFilter, if_neg h]

theorem sortStrings_filter_comm (p : String → Bool) (l : List String) :
    sortStrings (l.filter p) = (sortStrings l).filter p := by
  apply ascending_perm_eq
  · exact sortStrings_ascending _
  · exact (sortStrings_ascending l).filter p
  · exact (sortStrings_perm (l.filter p)).trans ((sortStrings_perm l).symm.filter p)

theorem pagination_code_eq_claim (names : List String) (n : Option Nat) (last : String)
    (hnb : ∀ r ∈ names, r ≠ "")
    (hn : ∀ k, n = some k → (pyLastFilter last names).length ≤ k) :
    sortStrings (pyTake n (pyLastFilter last names)) = paginationClaim names n last := by
  have hperm : List.Perm (pyLastFilter last names)
      ((sortStrings names).filter (fun r => strLt last r)) := by
    rw [pyLastFilter_eq_filter last names hnb]
    exact (sortStrings_perm names).symm.filter _
  rw [pyTake_eq_of_le n _ hn, pyLastFilter_eq_filter last names hnb,
    sortStrings_filter_comm, paginationClaim, pyTake_eq_of_le]
  intro k hk
  calc ((sortStrings names).filter (fun r => strLt last r)).length
      = (pyLastFilter last names).length := hperm.length_eq.symm
    _ ≤ k := hn k hk

/-- Counterexample to C8 as stated: with the directory enumeration
`["b", "a"]` and `n = 1`, the catalog endpoint truncates *before*
sorting and returns `["b"]`, not the smallest qualifying name `["a"]`
demanded by the claim; the result depends on enumeration order. -/
theorem c8_counterexample :
    (list_repositories
      { blobs := [], uploads := [], manifests := [("b", []), ("a", [])] }
      (some 1) "").repositories = ["b"] ∧
    paginationClaim ["b", "a"] (some 1) "" = ["a"] ∧
    (["b"] : List String) ≠ ["a"] := by
  decide

/-- C8 (amended): the catalog and tag-list endpoints return the
ascending sort of the first `n` qualifying entries in directory
enumeration order; whenever `n` is absent or at least the number of
qualifying entries (and no name is empty), this equals the claimed
sort–drop–truncate result, independent of enumeration order. -/
theorem c8_pagination_sorted (st : RegState) (name : String) (n : Option Nat)
    (last : String) (files : List (String × Bytes))
    (hrepo : alookup st.manifests name = some files)
    (hnb : ∀ r ∈ st.manifests.map Prod.fst, r ≠ "")
    (htb : ∀ r ∈ (files.filter
      (fun fc => ! strStartsWith fc.1 "sha256:")).map Prod.fst, r ≠ "")
    (hn : ∀ k, n = some k →
      (pyLastFilter last (st.manifests.map Prod.fst)).length ≤ k)
    (hnt : ∀ k, n = some k →
      (pyLastFilter last ((files.filter
        (fun fc => ! strStartsWith fc.1 "sha256:")).map Prod.fst)).length ≤ k) :
    (list_repositories st n last).repositories
        = paginationClaim (st.manifests.map Prod.fst) n last ∧
    (list_tags st name n last).status = 200 ∧
    (list_tags st name n last).tags
        = paginationClaim ((files.filter
            (fun fc => ! strStartsWith fc.1 "sha256:")).map Prod.fst) n last := by
  refine ⟨?_, ?_, ?_⟩
  · simp only [list_repositories]
    exact pagination_code_eq_claim (st.manifests.map Prod.fst) n last hnb hn
  · simp [list_tags, hrepo]
  · simp only [list_tags, hrepo]
    exact pagination_code_eq_claim _ n last htb hnt

/-- Witness for C8 (amended): two repositories `b`, `a` (repository `b`
holding tag `x`), `n = 5`, empty `last`. -/
theorem c8_pagination_sorted_witness :
    (list_repositories
      { blobs := [], uploads := [], manifests := [("b", [("x", [1])]), ("a", [])] }
      (some 5) "").repositories
        = paginationClaim ["b", "a"] (some 5) "" ∧
    (list_tags
      { blobs := [], uploads := [], manifests := [("b", [("x", [1])]), ("a", [])] }
      "b" (some 5) "").status = 200 ∧
    (list_tags
      { blobs := [], uploads := [], manifests := [("b", [("x", [1])]), ("a", [])] }
      "b" (some 5) "").tags
        = paginationClaim (([("x", ([1] : Bytes))].filter
            (fun fc => ! strStartsWith fc.1 "sha256:")).map Prod.fst) (some 5) "" := by
  have H := c8_pagination_sorted
    { blobs := [], uploads := [], manifests := [("b", [("x", [1])]), ("a", [])] }
    "b" (some 5) "" [("x", [1])] (by decide) (by decide) (by decide)
    (by intro k hk; cases hk; decide) (by intro k hk; cases hk; decide)
  exact H

end DockerRegistry

namespace DockerRegistry

/-! ## Claim C9: a rejected manifest PUT still creates the repository -/

theorem mem_sortStrings (x : String) (l : List String) : x ∈ sortStrings l ↔ x ∈ l :=
  (sortStrings_perm l).mem_iff

theorem list_tags_of_empty_repo (st : RegState) (repo : String) (n : Option Nat)
    (last : String) (h : alookup st.manifests repo = some []) :
    (list_tags st repo n last).status = 200 ∧ (list_tags st repo n last).tags = [] := by
  simp only [list_tags, h]
  refine ⟨trivial, ?_⟩
  have hfilter : pyLastFilter last ((([] : List (String × Bytes)).filter
      (fun fc => ! strStartsWith fc.1 "sha256:")).map Prod.fst) = [] := by
    simp [pyLastFilter]
  rw [hfilter]
  cases n with
  | none => rfl
  | some k => simp [pyTake, sortStrings]

/-- C9: a manifest PUT rejected with 400 `MANIFEST_INVALID` — for an
unsupported `Content-Type`, or for an unparseable JSON body — has
already created the repository directory, writing no manifest file;
afterwards `list_tags` for that repository answers 200 with an empty
tag list (instead of 404 `NAME_UNKNOWN`) and the repository name
appears in the catalog. -/
theorem c9_rejected_put_creates_repo (env : Env) (st : RegState)
    (repo reference contentType : String) (body : Bytes)
    (hfresh : alookup st.manifests repo = none) (n : Option Nat) (last : String) :
    (contentTypeOk contentType = false →
      (put_manifest env st repo reference contentType body).1
        = { status := 400, errorCode := some "MANIFEST_INVALID" } ∧
      (put_manifest env st repo reference contentType body).2.manifests
        = st.manifests ++ [(repo, [])] ∧
      (list_tags (put_manifest env st repo reference contentType body).2
        repo n last).status = 200 ∧
      (list_tags (put_manifest env st repo reference contentType body).2
        repo n last).tags = [] ∧
      repo ∈ (list_repositories (put_manifest env st repo reference contentType body).2
        none "").repositories) ∧
    (contentTypeOk contentType = true → env.parse body = none →
      (put_manifest env st repo reference contentType body).1
        = { status := 400, errorCode := some "MANIFEST_INVALID" } ∧
      (put_manifest env st repo reference contentType body).2.manifests
        = st.manifests ++ [(repo, [])] ∧
      (list_tags (put_manifest env st repo reference contentType body).2
        repo n last).status = 200 ∧
      (list_tags (put_manifest env st repo reference contentType body).2
        repo n last).tags = [] ∧
      repo ∈ (list_repositories (put_manifest env st repo reference contentType body).2
        none "").repositories) := by
  have hsome : (alookup st.manifests repo).isSome = false := by rw [hfresh]; rfl
  have halk : alookup (st.manifests ++ [(repo, [])]) repo = some [] := by
    rw [alookup_append_left_none _ _ _ hfresh]
    simp [alookup]
  constructor
  · intro hct
    have hput : put_manifest env st repo reference contentType body
        = ({ status := 400, errorCode := some "MANIFEST_INVALID" },
           { st with manifests := st.manifests ++ [(repo, [])] }) := by
      simp only [put_manifest, hsome, Bool.false_eq_true, if_false]
      rw [if_pos (by rw [hct]; simp)]
    rw [hput]
    have hlt := list_tags_of_empty_repo
      { st with manifests := st.manifests ++ [(repo, [])] } repo n last halk
    refine ⟨rfl, rfl, hlt.1, hlt.2, ?_⟩
    simp only [list_repositories, pyTake, pyLastFilter, if_pos rfl]
    rw [mem_sortStrings, List.map_append]
    exact List.mem_append_right _ (by simp)
  · intro hct hparse
    have hput : put_manifest env st repo reference contentType body
        = ({ status := 400, errorCode := some "MANIFEST_INVALID" },
           { st with manifests := st.manifests ++ [(repo, [])] }) := by
      simp only [put_manifest, hsome, Bool.false_eq_true, if_false]
      rw [if_neg (by rw [hct]; simp), hparse]
    rw [hput]
    have hlt := list_tags_of_empty_repo
      { st with manifests := st.manifests ++ [(repo, [])] } repo n last halk
    refine ⟨rfl, rfl, hlt.1, hlt.2, ?_⟩
    simp only [list_repositories, pyTake, pyLastFilter, if_pos rfl]
    rw [mem_sortStrings, List.map_append]
    exact List.mem_append_right _ (by simp)

/-- Witness for C9: a PUT with an unsupported content type `text/plain`
and a PUT of the unparseable body `[9]` to the fresh repository `r`. -/
theorem c9_rejected_put_creates_repo_witness :
    (contentTypeOk "text/plain" = false →
      (put_manifest sampleEnv { blobs := [], uploads := [], manifests := [] }
        "r" "t" "text/plain" [9]).1
        = { status := 400, errorCode := some "MANIFEST_INVALID" } ∧
      (put_manifest sampleEnv { blobs := [], uploads := [], manifests := [] }
        "r" "t" "text/plain" [9]).2.manifests = [] ++ [("r", [])] ∧
      (list_tags (put_manifest sampleEnv { blobs := [], uploads := [], manifests := [] }
        "r" "t" "text/plain" [9]).2 "r" none "").status = 200 ∧
      (list_tags (put_manifest sampleEnv { blobs := [], uploads := [], manifests := [] }
        "r" "t" "text/plain" [9]).2 "r" none "").tags = [] ∧
      "r" ∈ (list_repositories (put_manifest sampleEnv
        { blobs := [], uploads := [], manifests := [] }
        "r" "t" "text/plain" [9]).2 none "").repositories) ∧
    (contentTypeOk "text/plain" = true → sampleEnv.parse [9] = none →
      (put_manifest sampleEnv { blobs := [], uploads := [], manifests := [] }
        "r" "t" "text/plain" [9]).1
        = { status := 400, errorCode := some "MANIFEST_INVALID" } ∧
      (put_manifest sampleEnv { blobs := [], uploads := [], manifests := [] }
        "r" "t" "text/plain" [9]).2.manifests = [] ++ [("r", [])] ∧
      (list_tags (put_manifest sampleEnv { blobs := [], uploads := [], manifests := [] }
        "r" "t" "text/plain" [9]).2 "r" none "").status = 200 ∧
      (list_tags (put_manifest sampleEnv { blobs := [], uploads := [], manifests := [] }
        "r" "t" "text/plain" [9]).2 "r" none "").tags = [] ∧
      "r" ∈ (list_repositories (put_manifest sampleEnv
        { blobs := [], uploads := [], manifests := [] }
        "r" "t" "text/plain" [9]).2 none "").repositories) :=
  c9_rejected_put_creates_repo sampleEnv
    { blobs := [], uploads := [], manifests := [] } "r" "t" "text/plain" [9]
    (by decide) none ""

/-! ## Claim C10: digest-addressed PUT is unverified -/

/-- C10: a manifest PUT addressed by a digest reference whose valid
body does not hash to that digest still succeeds with 201: the body is
stored under the stripped reference with no verification, and the
returned `Docker-Content-Digest` is the hash of the body, not the
requested address. -/
theorem c10_digest_put_unverified (env : Env) (st : RegState)
    (repo reference contentType : String) (body : Bytes) (doc : ManifestDoc)
    (href : strStartsWith reference "sha256:" = true)
    (hct : contentTypeOk contentType = true)
    (hparse : env.parse body = some doc)
    (hmt : mediaTypeBad doc = false)
    (hne : env.hashHex body ≠ get_manifest_path reference) :
    (put_manifest env st repo reference contentType body).1.status = 201 ∧
    (put_manifest env st repo reference contentType body).1.digestHeader
        = some (fullDigest env body) ∧
    alookup (repoFiles (put_manifest env st repo reference contentType body).2 repo)
        (get_manifest_path reference) = some body := by
  have hfiles : (alookup (if (alookup st.manifests repo).isSome then st.manifests
      else st.manifests ++ [(repo, [])]) repo).getD [] = repoFiles st repo := by
    cases hsr : alookup st.manifests repo with
    | none =>
      simp only [repoFiles, hsr, Option.isSome_none, Bool.false_eq_true, if_false]
      rw [alookup_append_left_none st.manifests [(repo, [])] repo hsr]
      simp [alookup]
    | some fs => simp [repoFiles, hsr]
  simp only [put_manifest, hparse, hct, hmt, href, not_true, Bool.true_eq_false,
    Bool.false_eq_true, if_false, not_false_iff, if_true, Bool.not_true,
    Bool.not_false, repoFiles, hfiles]
  refine ⟨trivial, trivial, ?_⟩
  rw [alookup_aset_self]
  simp only [Option.getD_some]
  rw [alookup_aset_self]

/-- Witness for C10: PUT body `[1]` (hash `hm1`) at the digest address
`sha256:xyz`. -/
theorem c10_digest_put_unverified_witness :
    (put_manifest sampleEnv { blobs := [], uploads := [], manifests := [] }
      "r" "sha256:xyz" MANIFEST_V2 [1]).1.status = 201 ∧
    (put_manifest sampleEnv { blobs := [], uploads := [], manifests := [] }
      "r" "sha256:xyz" MANIFEST_V2 [1]).1.digestHeader
        = some (fullDigest sampleEnv [1]) ∧
    alookup (repoFiles (put_manifest sampleEnv
      { blobs := [], uploads := [], manifests := [] }
      "r" "sha256:xyz" MANIFEST_V2 [1]).2 "r") (get_manifest_path "sha256:xyz")
        = some [1] :=
  c10_digest_put_unverified sampleEnv { blobs := [], uploads := [], manifests := [] }
    "r" "sha256:xyz" MANIFEST_V2 [1] sampleDocM1
    (by decide) (by decide) (by decide) (by decide) (by decide)

end DockerRegistry
